import Mathlib

/-!
# Verification of the paper identity resolution / snapshot engine

Shallow embedding of the core matching and snapshot-merge logic of
`deepresearch_flow` (files `paper/db_match.py`,
`paper/snapshot/update.py`, `paper/snapshot/supplement.py`,
`paper/snapshot/image_utils.py`), together with proofs of the
specification claims about it.

Python floats are modelled as rationals (`ℚ`); the similarity scores the
code manipulates are `difflib` ratios `2*M/T`, which are rational.  The
`difflib.SequenceMatcher` ratio itself, title normalisation
(`_normalize_title_key`, which folds Unicode via NFKD tables) and
filename title extraction are kept abstract: the matcher definitions are
parametrised over a score function `sim` and a candidate-title function
`candTitle`, exactly at the call sites where the source invokes them.
Python strings are modelled through their character lists (`String` /
`List Char`), with Python's `str` methods re-implemented by structural
recursion so that all definitions evaluate.
-/

namespace DrFlow

/-! ## Constants from db_match.py (lines 216-223) -/

def TITLE_PREFIX_LEN : Nat := 16
def TITLE_MIN_CHARS : Nat := 24
def TITLE_MIN_TOKENS : Nat := 4
def AUTHOR_YEAR_MIN_SIMILARITY : ℚ := (8 : ℚ) / 10
def LEADING_NUMERIC_MAX_LEN : Nat := 2
def SIMILARITY_START : ℚ := (95 : ℚ) / 100
def SIMILARITY_STEP : ℚ := (5 : ℚ) / 100
def SIMILARITY_MAX_STEPS : Nat := 10

/-! ## String helpers (models of Python `str` methods) -/

/-- Accumulator-based whitespace tokenizer: models Python `str.split()`
(split on whitespace runs, dropping empty pieces). -/
def splitWSAux : List Char → List Char → List (List Char)
  | [], acc => if acc.isEmpty then [] else [acc.reverse]
  | c :: cs, acc =>
    if c.isWhitespace then
      if acc.isEmpty then splitWSAux cs [] else acc.reverse :: splitWSAux cs []
    else splitWSAux cs (c :: acc)

/-- The whitespace tokens of a string, as character lists. -/
def pyTokens (s : String) : List (List Char) :=
  splitWSAux s.toList []

/-- Models Python `hay.startswith(needle)` on character lists (`listHasPre needle hay`). -/
def listHasPre (needle hay : List Char) : Bool :=
  match needle, hay with
  | [], _ => true
  | _ :: _, [] => false
  | a :: as, b :: bs => a == b && listHasPre as bs

/-- Models Python substring containment `needle in hay` on character
lists (`listHasSub needle hay`). -/
def listHasSub (needle hay : List Char) : Bool :=
  listHasPre needle hay ||
    (match hay with
     | [] => false
     | _ :: bs => listHasSub needle bs)

/-- Models Python `hay.startswith(needle)` (`strStartsWith hay needle`). -/
def strStartsWith (hay needle : String) : Bool :=
  listHasPre needle.toList hay.toList

/-- Models Python `needle in hay` (`strContains hay needle`). -/
def strContains (hay needle : String) : Bool :=
  listHasSub needle.toList hay.toList

/-- Models Python `str.strip()`. -/
def trimList (l : List Char) : List Char :=
  ((l.dropWhile Char.isWhitespace).reverse.dropWhile Char.isWhitespace).reverse

/-- Fuel-driven deletion of every occurrence of `needle`, scanning left to
right: models Python `hay.replace(needle, "")`.  The fuel is the length of
the remaining input, so it never runs out. -/
def stripSubFuel (needle : List Char) : Nat → List Char → List Char
  | 0, hay => hay
  | Nat.succ n, hay =>
    match hay with
    | [] => []
    | c :: cs =>
      if !needle.isEmpty && listHasPre needle (c :: cs) then
        stripSubFuel needle n (cs.drop (needle.length - 1))
      else c :: stripSubFuel needle n cs

/-- Models Python `hay.replace(needle, "")`. -/
def stripSub (needle hay : List Char) : List Char :=
  stripSubFuel needle hay.length hay

/-! ## Title key helpers from db_match.py -/

/-- Embeds `_compact_title_key` (db_match.py:284): `title_key.replace(" ", "")`. -/
def compactTitleKey (titleKey : String) : String :=
  String.mk (titleKey.toList.filter (fun c => c != ' '))

/-- A leading token dropped by `_strip_leading_numeric_tokens`: all
digits, length at most 2. -/
def isShortNumericToken (t : List Char) : Bool :=
  !t.isEmpty && t.all Char.isDigit && decide (t.length ≤ LEADING_NUMERIC_MAX_LEN)

/-- Embeds `_strip_leading_numeric_tokens` (db_match.py:288): drop leading
digit-only tokens of length at most 2; keep the original string when
nothing is dropped. -/
def stripLeadingNumericTokens (titleKey : String) : String :=
  let tokens := pyTokens titleKey
  let rest := tokens.dropWhile isShortNumericToken
  if rest.length = tokens.length then titleKey
  else String.mk (List.intercalate [' '] rest)

/-- Embeds `_title_prefix_key` (db_match.py:444): emitted only when the key has
at least 4 tokens and the compact form has at least 16 characters. -/
def titlePrefixKey (titleKey : String) : Option String :=
  if (pyTokens titleKey).length < TITLE_MIN_TOKENS then none
  else
    let compact := compactTitleKey titleKey
    if compact.length < TITLE_PREFIX_LEN then none
    else
      let pre := String.mk (compact.toList.take TITLE_PREFIX_LEN)
      if pre.isEmpty then none else some ("prefix:" ++ pre)

/-- Embeds `_normalize_author_key` (db_match.py:431): lowercase, strip, drop
"et al." / "et al", keep the part before the first comma, keep only
`[a-z0-9]` runs, return the last remaining word. -/
def normalizeAuthorKey (name : String) : String :=
  let raw := trimList (name.toList.map Char.toLower)
  let raw := stripSub "et al.".toList raw
  let raw := stripSub "et al".toList raw
  let raw := raw.takeWhile (fun c => c != ',')
  let spaced := raw.map (fun c => if c.isLower || c.isDigit then c else ' ')
  match (splitWSAux spaced []).getLast? with
  | none => ""
  | some t => String.mk t

/-! ## The overlap test (db_match.py:456-466) -/

/-- Embeds `_title_overlap_match` (db_match.py:456): empty keys never match; equal keys match
immediately; otherwise the shorter key must have at least 24 characters
or 4 tokens, and be a prefix or substring of the longer. -/
def titleOverlapMatch (a b : String) : Bool :=
  if a.isEmpty || b.isEmpty then false
  else if a = b then true
  else
    let shorter := if a.length ≤ b.length then a else b
    let longer := if a.length ≤ b.length then b else a
    if TITLE_MIN_CHARS ≤ shorter.length ∨ TITLE_MIN_TOKENS ≤ (pyTokens shorter).length then
      strStartsWith longer shorter || strContains longer shorter
    else false

/-- The overlap condition in the words of the specification ("one
normalized title is a substring/prefix of the other and the shorter one
has ≥24 characters or ≥4 tokens"), for comparison with
`titleOverlapMatch`. -/
def overlapSpecCondition (a b : String) : Prop :=
  let shorter := if a.length ≤ b.length then a else b
  let longer := if a.length ≤ b.length then b else a
  (strStartsWith longer shorter = true ∨ strContains longer shorter = true) ∧
    (TITLE_MIN_CHARS ≤ shorter.length ∨ TITLE_MIN_TOKENS ≤ (pyTokens shorter).length)

instance overlapSpecConditionDecidable (a b : String) : Decidable (overlapSpecCondition a b) := by
  unfold overlapSpecCondition
  exact inferInstance

/-! ## The adaptive similarity matcher (db_match.py:475-523) -/

/-- Embeds the inner `matches_at` (db_match.py:489): candidates scoring at or above the
threshold, in pool order. -/
def matchesAt {α : Type} (scored : List (α × ℚ)) (threshold : ℚ) : List (α × ℚ) :=
  match scored with
  | [] => []
  | pr :: rest =>
    if threshold ≤ pr.2 then pr :: matchesAt rest threshold
    else matchesAt rest threshold

/-- The inner binary search of `_adaptive_similarity_match`
(db_match.py:508-519): up to `fuel` iterations over `(low, high)`. -/
def binarySearchMatch {α : Type} (scored : List (α × ℚ)) :
    ℚ → ℚ → Nat → Option (α × ℚ)
  | _, _, 0 => none
  | low, high, Nat.succ n =>
    if (matchesAt scored ((low + high) / 2)).length = 1 then
      (matchesAt scored ((low + high) / 2)).head?
    else if (matchesAt scored ((low + high) / 2)).length = 0 then
      binarySearchMatch scored low ((low + high) / 2) n
    else
      binarySearchMatch scored ((low + high) / 2) high n

/-- The Python guard `prev_count == 0 and prev_threshold is not None`
(db_match.py:506): the previous threshold when its match count was 0. -/
def prevZeroThreshold (prev : Option (ℚ × Nat)) : Option ℚ :=
  match prev with
  | some (pt, 0) => some pt
  | _ => none

/-- The descending threshold loop of `_adaptive_similarity_match`
(db_match.py:492-523).  `prev` carries `(prev_threshold, prev_count)`. -/
def descendingThresholdSearch {α : Type} (scored : List (α × ℚ)) :
    ℚ → Option (ℚ × Nat) → Nat → Option (α × ℚ)
  | _, _, 0 => none
  | t, prev, Nat.succ n =>
    if (matchesAt scored t).length = 1 then (matchesAt scored t).head?
    else if (matchesAt scored t).length = 0 then
      descendingThresholdSearch scored (t - SIMILARITY_STEP) (some (t, 0)) n
    else
      match prevZeroThreshold prev with
      | some pt => binarySearchMatch scored t pt SIMILARITY_MAX_STEPS
      | none =>
        descendingThresholdSearch scored (t - SIMILARITY_STEP)
          (some (t, (matchesAt scored t).length)) n

/-- The scoring loop of `_adaptive_similarity_match` (db_match.py:478-487):
skip candidates with empty titles, return `(path, 1.0)` immediately on an
overlap match, otherwise collect `(path, sim)` pairs in order. -/
def scoreOrOverlap {α : Type} (sim : String → String → ℚ) (titleKey : String) :
    List (α × String) → Sum (α × ℚ) (List (α × ℚ))
  | [] => Sum.inr []
  | (p, ct) :: rest =>
    if ct.isEmpty then scoreOrOverlap sim titleKey rest
    else if titleOverlapMatch titleKey ct then Sum.inl (p, 1)
    else
      match scoreOrOverlap sim titleKey rest with
      | Sum.inl hit => Sum.inl hit
      | Sum.inr scored => Sum.inr ((p, sim titleKey ct) :: scored)

/-- Embeds `_adaptive_similarity_match` (db_match.py:475-523), parametrised over
the similarity function `sim` (`_title_similarity`) and with candidates
paired with their normalized titles
(`_normalize_title_key(_extract_title_from_filename(path.name))`). -/
def adaptiveSimilarityMatch {α : Type} (sim : String → String → ℚ) (titleKey : String)
    (candidates : List (α × String)) : Option α × ℚ :=
  if titleKey.isEmpty then (none, 0)
  else
    match scoreOrOverlap sim titleKey candidates with
    | Sum.inl (p, s) => (some p, s)
    | Sum.inr [] => (none, 0)
    | Sum.inr scored =>
      match descendingThresholdSearch scored SIMILARITY_START none SIMILARITY_MAX_STEPS with
      | some (p, s) => (some p, s)
      | none => (none, 0)

/-- The thresholds actually probed by the descending loop:
`0.95 - i * 0.05`. -/
def testedThreshold (i : Nat) : ℚ :=
  SIMILARITY_START - (i : ℚ) * SIMILARITY_STEP

/-! ## File resolution (`_resolve_by_title_and_meta`, db_match.py:526-590)

The file index (`_build_file_index`) is modelled as a total function from
keys to candidate lists, exactly the behaviour of `dict.get(key, [])`;
the derived fields `paper["_year"]` and `paper["_authors"]` that
`build_index` tags onto the record are fields of `PaperMeta`, `titleKey`
stands for `_normalize_title_key(paper["paper_title"])`, and
`sourcePath` for `paper.get("source_path") or ""`. -/

/-- Models Python `str.lower()` (ASCII folding, as elsewhere in this
embedding). -/
def strLower (s : String) : String :=
  String.mk (s.toList.map Char.toLower)

/-- Models `Path(p).name` for POSIX-style paths: drop trailing
separators, then keep the part after the last separator. -/
def pathBaseName (p : String) : String :=
  let stripped := (p.toList.reverse.dropWhile (fun c => c == '/')).reverse
  String.mk ((stripped.reverse.takeWhile (fun c => c != '/')).reverse)

structure PaperMeta where
  titleKey : String
  yearLabel : String
  authors : List String
  sourcePath : String

/-- The candidate pool of the year/author tail of
`_resolve_by_title_and_meta` (db_match.py:569-581): the author-year key
when the author key is non-empty and it hits, otherwise the year key. -/
def yearPoolCands {α : Type} (fileIndex : String → List α) (year authorKey : String) :
    List α :=
  let cands0 :=
    if !authorKey.isEmpty then fileIndex ("authoryear:" ++ year ++ ":" ++ authorKey) else []
  if cands0.isEmpty then fileIndex ("year:" ++ year) else cands0

/-- The `match_type` value of the year/author tail (db_match.py:574-578). -/
def yearPoolMatchType {α : Type} (fileIndex : String → List α) (year authorKey : String) :
    String :=
  let cands0 :=
    if !authorKey.isEmpty then fileIndex ("authoryear:" ++ year ++ ":" ++ authorKey) else []
  if !authorKey.isEmpty && !cands0.isEmpty then "author_year" else "year"

/-- The year/author tail of `_resolve_by_title_and_meta`
(db_match.py:566-590): author-year key first, then plain year key, then
adaptive narrowing, rejecting fuzzy scores below 0.8. -/
def yearAuthorResolve {α : Type} (sim : String → String → ℚ) (candTitle : α → String)
    (fileIndex : String → List α) (titleKey year authorKey : String) :
    Option α × Option String × ℚ :=
  let cands := yearPoolCands fileIndex year authorKey
  if cands.isEmpty then (none, none, 0)
  else if cands.length = 1 && titleKey.isEmpty then
    (cands.head?, some (yearPoolMatchType fileIndex year authorKey), 1)
  else
    let res := adaptiveSimilarityMatch sim titleKey (cands.map (fun q => (q, candTitle q)))
    res.1.elim ((none : Option α), (none : Option String), (0 : ℚ))
      (fun m =>
        if res.2 < AUTHOR_YEAR_MIN_SIMILARITY then (none, none, 0)
        else (some m, some "title_fuzzy", res.2))

/-- Embeds `_resolve_by_title_and_meta` (db_match.py:526-590): exact title key,
compact key, numeric-stripped variants, prefix-key adaptive narrowing,
then the year/author tail. -/
def resolveByTitleAndMeta {α : Type} (sim : String → String → ℚ) (candTitle : α → String)
    (fileIndex : String → List α) (p : PaperMeta) : Option α × Option String × ℚ :=
  let titleKey := p.titleKey
  let candidates := fileIndex titleKey
  if !candidates.isEmpty then (candidates.head?, some "title", 1) else
  let exactHit : Option (Option α × Option String × ℚ) :=
    if !titleKey.isEmpty then
      let compactKey := compactTitleKey titleKey
      let compactCands := fileIndex ("compact:" ++ compactKey)
      if !compactCands.isEmpty then some (compactCands.head?, some "title_compact", 1) else
      let strippedKey := stripLeadingNumericTokens titleKey
      if !strippedKey.isEmpty && strippedKey ≠ titleKey then
        let strippedCands := fileIndex strippedKey
        if !strippedCands.isEmpty then some (strippedCands.head?, some "title_stripped", 1) else
        let strippedCompact := compactTitleKey strippedKey
        let strippedCands2 := fileIndex ("compact:" ++ strippedCompact)
        if !strippedCands2.isEmpty then some (strippedCands2.head?, some "title_compact", 1)
        else none
      else none
    else none
  match exactHit with
  | some r => r
  | none =>
    let prefixCands0 :=
      match titlePrefixKey titleKey with
      | some k => fileIndex k
      | none => []
    let prefixCands :=
      if prefixCands0.isEmpty then
        let strippedKey := stripLeadingNumericTokens titleKey
        if !strippedKey.isEmpty && strippedKey ≠ titleKey then
          match titlePrefixKey strippedKey with
          | some k => fileIndex k
          | none => []
        else []
      else prefixCands0
    let prefixResult : Option (Option α × Option String × ℚ) :=
      if !prefixCands.isEmpty then
        match adaptiveSimilarityMatch sim titleKey (prefixCands.map (fun q => (q, candTitle q))) with
        | (some m, s) =>
          some (some m, some (if 1 ≤ s then "title_prefix" else "title_fuzzy"), s)
        | (none, _) => none
      else none
    match prefixResult with
    | some r => r
    | none =>
      let yearChars := trimList p.yearLabel.toList
      if !(!yearChars.isEmpty && yearChars.all Char.isDigit) then (none, none, 0)
      else
        let year := String.mk yearChars
        let authorKey :=
          match p.authors with
          | [] => ""
          | a :: _ => normalizeAuthorKey a
        yearAuthorResolve sim candTitle fileIndex titleKey year authorKey

/-- Embeds `_resolve_source_md` (db_match.py:721-731): exact lookup of
the lowercased source-path filename first — on a hit the first indexed
path is returned — otherwise resolution falls through to
`_resolve_by_title_and_meta`. -/
def resolveSourceMd {α : Type} (sim : String → String → ℚ) (candTitle : α → String)
    (mdIndex : String → List α) (p : PaperMeta) : Option α :=
  let hit :=
    if !p.sourcePath.isEmpty then (mdIndex (strLower (pathBaseName p.sourcePath))).head?
    else none
  match hit with
  | some c => some c
  | none => (resolveByTitleAndMeta sim candTitle mdIndex p).1

/-! ## Identity resolution (`_resolve_paper_identity`, update.py:234-249)

The SQLite `paper_key_alias` table is modelled as an association list
`(paper_key, paper_id)` and `SELECT paper_id FROM paper_key_alias WHERE
paper_key = ?` / `fetchone()` as first-match lookup.  The candidate list
produced by `build_paper_key_candidates`, the preferred key chosen by
`choose_preferred_key` and the fresh id generator `paper_id_for_key`
(module `snapshot/identity.py`, not part of the sources at hand) are
taken as parameters. -/

/-- First-match association-list lookup. -/
def lookupBy {κ β : Type} [DecidableEq κ] : List (κ × β) → κ → Option β
  | [], _ => none
  | (k', v) :: rest, k => if k' = k then some v else lookupBy rest k

/-- A `PaperKeyCandidate`: `paper_key`, `key_type`, optional
`meta_fingerprint`. -/
structure KeyCandidate where
  paper_key : String
  key_type : String
  meta_fingerprint : Option String
deriving DecidableEq

/-- The probe loop of `_resolve_paper_identity` (update.py:239-245):
return the alias row of the first candidate key present in the table. -/
def probeCandidates (table : List (String × String)) :
    List KeyCandidate → Option (String × KeyCandidate)
  | [] => none
  | c :: rest =>
    match lookupBy table c.paper_key with
    | some pid => some (pid, c)
    | none => probeCandidates table rest

/-- Embeds `_resolve_paper_identity` (update.py:234-249).  Returns
`(paper_id, paper_key, key_type, meta_fingerprint)`. -/
def resolvePaperIdentity (table : List (String × String)) (explicitId : String)
    (candidates : List KeyCandidate) (preferred : KeyCandidate)
    (freshIdOf : String → String) : String × String × String × Option String :=
  match probeCandidates table candidates with
  | some (pid, c) => (pid, c.paper_key, c.key_type, c.meta_fingerprint)
  | none =>
    let pid := if explicitId.isEmpty then freshIdOf preferred.paper_key else explicitId
    (pid, preferred.paper_key, preferred.key_type, preferred.meta_fingerprint)

/-! ## Alias registration (`_add_new_paper`, update.py:402-414) -/

/-- A row of `paper_key_alias`. -/
structure AliasRow where
  paper_key : String
  paper_id : String
  key_type : String
  meta_fingerprint : Option String
deriving DecidableEq

/-- Modelled from the spec: the snapshot schema (`snapshot/schema.py`,
not part of the sources at hand) keys `paper_key_alias` by `paper_key`
("a given paper_key maps to at most one paper_id at any time"), so
SQLite `INSERT OR REPLACE INTO paper_key_alias` replaces the row with
the same `paper_key` when one exists and appends otherwise. -/
def insertOrReplaceAlias (table : List AliasRow) (row : AliasRow) : List AliasRow :=
  if table.any (fun r => decide (r.paper_key = row.paper_key)) then
    table.map (fun r => if r.paper_key = row.paper_key then row else r)
  else table ++ [row]

/-- The candidate registration loop of `_add_new_paper`
(update.py:402-414): one `INSERT OR REPLACE` per candidate, with the
`meta_fingerprint` kept only for `meta` keys. -/
def registerCandidateKeys (paperId : String) : List AliasRow → List KeyCandidate → List AliasRow
  | table, [] => table
  | table, c :: rest =>
    registerCandidateKeys paperId
      (insertOrReplaceAlias table
        { paper_key := c.paper_key
          paper_id := paperId
          key_type := c.key_type
          meta_fingerprint := if c.key_type = "meta" then c.meta_fingerprint else none })
      rest

/-- The invariant of the alias registry: each `paper_key` maps to at most
one `paper_id`. -/
def aliasKeyFunctional (table : List AliasRow) : Prop :=
  ∀ r1 ∈ table, ∀ r2 ∈ table, r1.paper_key = r2.paper_key → r1.paper_id = r2.paper_id

instance aliasKeyFunctionalDecidable (table : List AliasRow) :
    Decidable (aliasKeyFunctional table) := by
  unfold aliasKeyFunctional
  exact inferInstance

/-! ## Content-addressed image store (`store_bytes` inside
`rewrite_markdown_images`, image_utils.py:105-119)

Bytes are modelled as `List Nat`, the images directory as an association
list from file name to content, and the `written` set as a list of file
names.  The SHA-256 digest (`_hash_bytes`) and the MIME-to-extension
table (`_extension_from_mime`, which consults the `mimetypes` library)
are parameters; SHA-256 is a fixed function of the content, which is all
the claims use. -/

structure ImageStore where
  written : List String
  files : List (String × List Nat)
deriving DecidableEq

/-- Embeds `store_bytes` (image_utils.py:105-119): no extension means no store;
otherwise the file name is `digest + ext`, the blob is written only when
the name is not yet in `written` and no file with that name exists, and
the returned path is `images/<name>` either way. -/
def storeBytes (hash : List Nat → String) (extOf : String → Option String)
    (st : ImageStore) (mime : String) (data : List Nat) : ImageStore × Option String :=
  match extOf mime with
  | none => (st, none)
  | some ext =>
    let filename := hash data ++ ext
    let rel := "images/" ++ filename
    if st.written.contains filename then (st, some rel)
    else
      let files' :=
        if (lookupBy st.files filename).isSome then st.files
        else st.files ++ [(filename, data)]
      ({ written := filename :: st.written, files := files' }, some rel)

/-- Number of stored blobs carrying a given file name. -/
def blobCount (files : List (String × List Nat)) (name : String) : Nat :=
  (files.filter (fun pr => decide (pr.1 = name))).length

/-! ## Supplement engine (`supplement_snapshot`, supplement.py:100-133,
232-265, 268-356)

The snapshot database is reduced to the three tables the claim is about:
`paper` (its `paper_id` column), `paper_summary` keyed by
`(paper_id, template_tag)` (with the written summary JSON as payload),
and `paper_translation` keyed by `(paper_id, lang)` with the content
hash as value.  Identity resolution (`_resolve_existing_paper_ids`,
which performs SQL lookups and calls the external
`build_paper_key_candidates`) is abstracted into the per-record list of
resolved ids, and the translated-file scan into the per-record list of
`(lang, found content hash)` pairs in scan order. -/

structure SnapshotDB where
  papers : List String
  summaries : List ((String × String) × String)
  translations : List ((String × String) × String)
deriving DecidableEq

/-- Modelled from the spec: `paper_translation` is keyed by
`(paper_id, lang)` so `INSERT OR REPLACE` replaces the row with the same
key when one exists and appends otherwise. -/
def insertOrReplaceTranslation (rows : List ((String × String) × String))
    (key : String × String) (value : String) : List ((String × String) × String) :=
  if rows.any (fun r => decide (r.1 = key)) then
    rows.map (fun r => if r.1 = key then (key, value) else r)
  else rows ++ [(key, value)]

/-- Embeds `_supplement_templates` (supplement.py:232-265): insert the
`(paper_id, template_tag)` row and write the summary JSON only when the
row does not exist yet. -/
def supplementTemplates (db : SnapshotDB) (paperId templateTag payload : String) :
    SnapshotDB × Nat :=
  if (lookupBy db.summaries (paperId, templateTag)).isSome then (db, 0)
  else
    ({ db with summaries := db.summaries ++ [((paperId, templateTag), payload)] }, 1)

/-- Embeds `_supplement_translations` (supplement.py:268-356): for each scanned
language directory, skip it when a `(paper_id, lang)` row already
exists; otherwise, when a matching file was found, record its processed
content hash. -/
def supplementTranslations (paperId : String) :
    SnapshotDB → List (String × Option String) → SnapshotDB
  | db, [] => db
  | db, find :: rest =>
    if (lookupBy db.translations (paperId, find.1)).isSome then
      supplementTranslations paperId db rest
    else
      match find.2 with
      | none => supplementTranslations paperId db rest
      | some h =>
        supplementTranslations paperId
          { db with
            translations := insertOrReplaceTranslation db.translations (paperId, find.1) h }
          rest

/-- One input record of a supplement pass: its resolved paper ids, the
template tag and summary payload, and the scanned translation finds. -/
structure SupplementRecord where
  resolvedIds : List String
  templateTag : String
  payload : String
  finds : List (String × Option String)

/-- The loop over the resolved ids of one record
(supplement.py:111-127). -/
def supplementForIds (templateTag payload : String) (finds : List (String × Option String)) :
    SnapshotDB → List String → SnapshotDB
  | db, [] => db
  | db, pid :: rest =>
    supplementForIds templateTag payload finds
      (supplementTranslations pid (supplementTemplates db pid templateTag payload).1 finds)
      rest

/-- The per-record body of the `supplement_snapshot` loop
(supplement.py:105-127): records with no resolved paper id are skipped;
otherwise each resolved id receives the missing templates and
translations. -/
def supplementPaperStep (db : SnapshotDB) (rec : SupplementRecord) : SnapshotDB :=
  if rec.resolvedIds.isEmpty then db
  else supplementForIds rec.templateTag rec.payload rec.finds db rec.resolvedIds

/-- Embeds `supplement_snapshot` (supplement.py:100-133): fold the per-record
step over the input records. -/
def supplementSnapshot : SnapshotDB → List SupplementRecord → SnapshotDB
  | db, [] => db
  | db, rec :: rest => supplementSnapshot (supplementPaperStep db rec) rest

/-! ## Snapshot Builder metadata inheritance (§4.5)

Modelled from the spec: the Snapshot Builder module
(`snapshot/builder.py`) is not part of the sources at hand — only its
test
(`snapshot/tests/test_builder_metadata_inheritance.py`) is — so the
update rule for an existing `CatalogEntry` is modelled from the
specification: "for each field (DOI, BibTeX raw text/key/type, title,
year, venue), if the new PaperRecord supplies a non-empty value for that
field, the new value overrides the prior snapshot's value; otherwise the
prior snapshot's value is retained unchanged", with the `paper_id`
inherited from the prior entry. -/

structure CatalogEntry where
  paper_id : String
  doi : String
  bibtex_raw : String
  bibtex_key : String
  entry_type : String
  title : String
  year : String
  venue : String
deriving DecidableEq

structure RecordMeta where
  doi : String
  bibtex_raw : String
  bibtex_key : String
  entry_type : String
  title : String
  year : String
  venue : String
deriving DecidableEq

/-- Modelled from the spec (§4.5): per-field override-or-inherit when a
merge pass updates an existing catalog entry. -/
def mergeCatalogEntry (prior : CatalogEntry) (incoming : RecordMeta) : CatalogEntry :=
  { paper_id := prior.paper_id
    doi := if incoming.doi.isEmpty then prior.doi else incoming.doi
    bibtex_raw := if incoming.bibtex_raw.isEmpty then prior.bibtex_raw else incoming.bibtex_raw
    bibtex_key := if incoming.bibtex_key.isEmpty then prior.bibtex_key else incoming.bibtex_key
    entry_type := if incoming.entry_type.isEmpty then prior.entry_type else incoming.entry_type
    title := if incoming.title.isEmpty then prior.title else incoming.title
    year := if incoming.year.isEmpty then prior.year else incoming.year
    venue := if incoming.venue.isEmpty then prior.venue else incoming.venue }

/-- States that the second state keeps everything that already existed
in the first: the paper rows
are untouched, and summary/translation rows that existed keep their
values. -/
def preservesExisting (db db' : SnapshotDB) : Prop :=
  db'.papers = db.papers ∧
  (∀ k, (lookupBy db.summaries k).isSome →
      lookupBy db'.summaries k = lookupBy db.summaries k) ∧
  (∀ k, (lookupBy db.translations k).isSome →
      lookupBy db'.translations k = lookupBy db.translations k)

/-! # Theorems -/

/-! ## Matcher lemmas -/

theorem matchesAt_sublist {α : Type} (scored : List (α × ℚ)) {t t' : ℚ} (h : t' ≤ t) :
    List.Sublist (matchesAt scored t) (matchesAt scored t') := by
  induction scored with
  | nil => simp [matchesAt]
  | cons pr rest ih =>
    simp only [matchesAt]
    by_cases h1 : t ≤ pr.2
    · have h2 : t' ≤ pr.2 := le_trans h h1
      simp only [if_pos h1, if_pos h2]
      exact ih.cons₂ pr
    · simp only [if_neg h1]
      by_cases h2 : t' ≤ pr.2
      · simp only [if_pos h2]
        exact ih.cons pr
      · simp only [if_neg h2]
        exact ih

theorem matchesAt_length_le {α : Type} (scored : List (α × ℚ)) {t t' : ℚ} (h : t' ≤ t) :
    (matchesAt scored t).length ≤ (matchesAt scored t').length :=
  (matchesAt_sublist scored h).length_le

theorem testedThreshold_antitone {i j : Nat} (h : j ≤ i) :
    testedThreshold i ≤ testedThreshold j := by
  unfold testedThreshold
  have hj : (j : ℚ) ≤ (i : ℚ) := Nat.cast_le.mpr h
  have hs : (0 : ℚ) ≤ SIMILARITY_STEP := by norm_num [SIMILARITY_STEP]
  have := mul_le_mul_of_nonneg_right hj hs
  linarith

theorem descend_first_unique {α : Type} (scored : List (α × ℚ)) :
    ∀ (i fuel : Nat) (t : ℚ) (prev : Option (ℚ × Nat)), i < fuel →
      (∀ j < i, (matchesAt scored (t - (j : ℚ) * SIMILARITY_STEP)).length = 0) →
      (matchesAt scored (t - (i : ℚ) * SIMILARITY_STEP)).length = 1 →
      descendingThresholdSearch scored t prev fuel
        = (matchesAt scored (t - (i : ℚ) * SIMILARITY_STEP)).head? := by
  intro i
  induction i with
  | zero =>
    intro fuel t prev hfuel _ h1
    obtain ⟨n, rfl⟩ : ∃ n, fuel = n + 1 := ⟨fuel - 1, by omega⟩
    simp only [Nat.cast_zero, zero_mul, sub_zero] at h1 ⊢
    rw [descendingThresholdSearch, if_pos h1]
  | succ i ih =>
    intro fuel t prev hfuel hzero h1
    obtain ⟨n, rfl⟩ : ∃ n, fuel = n + 1 := ⟨fuel - 1, by omega⟩
    have h0 : (matchesAt scored t).length = 0 := by
      have := hzero 0 (by omega)
      simpa using this
    rw [descendingThresholdSearch, if_neg (by omega), if_pos h0]
    have hshift : ∀ j : Nat,
        t - SIMILARITY_STEP - (j : ℚ) * SIMILARITY_STEP
          = t - ((j + 1 : Nat) : ℚ) * SIMILARITY_STEP := by
      intro j
      push_cast
      ring
    have h1' : (matchesAt scored
        (t - SIMILARITY_STEP - (i : ℚ) * SIMILARITY_STEP)).length = 1 := by
      rw [hshift i]
      exact h1
    have hz' : ∀ j < i,
        (matchesAt scored (t - SIMILARITY_STEP - (j : ℚ) * SIMILARITY_STEP)).length = 0 := by
      intro j hj
      rw [hshift j]
      exact hzero (j + 1) (by omega)
    rw [ih n (t - SIMILARITY_STEP) (some (t, 0)) (by omega) hz' h1', hshift i]

theorem descend_zero_then_many {α : Type} (scored : List (α × ℚ)) :
    ∀ (i fuel : Nat) (t : ℚ) (prev : Option (ℚ × Nat)), i + 1 < fuel →
      (∀ j < i + 1, (matchesAt scored (t - (j : ℚ) * SIMILARITY_STEP)).length = 0) →
      2 ≤ (matchesAt scored (t - ((i + 1 : Nat) : ℚ) * SIMILARITY_STEP)).length →
      descendingThresholdSearch scored t prev fuel
        = binarySearchMatch scored (t - ((i + 1 : Nat) : ℚ) * SIMILARITY_STEP)
            (t - (i : ℚ) * SIMILARITY_STEP) SIMILARITY_MAX_STEPS := by
  intro i
  induction i with
  | zero =>
    intro fuel t prev hfuel hzero h2
    obtain ⟨n, rfl⟩ : ∃ n, fuel = n + 1 := ⟨fuel - 1, by omega⟩
    obtain ⟨m, rfl⟩ : ∃ m, n = m + 1 := ⟨n - 1, by omega⟩
    have h0 : (matchesAt scored t).length = 0 := by
      have := hzero 0 (by omega)
      simpa using this
    rw [descendingThresholdSearch, if_neg (by omega), if_pos h0]
    have h2' : 2 ≤ (matchesAt scored (t - SIMILARITY_STEP)).length := by
      have : t - ((0 + 1 : Nat) : ℚ) * SIMILARITY_STEP = t - SIMILARITY_STEP := by
        push_cast
        ring
      rw [this] at h2
      exact h2
    rw [descendingThresholdSearch, if_neg (by omega), if_neg (by omega)]
    have hlow : t - ((0 + 1 : Nat) : ℚ) * SIMILARITY_STEP = t - SIMILARITY_STEP := by
      push_cast
      ring
    have hhigh : t - ((0 : Nat) : ℚ) * SIMILARITY_STEP = t := by
      push_cast
      ring
    rw [hlow, hhigh]
    rfl
  | succ i ih =>
    intro fuel t prev hfuel hzero h2
    obtain ⟨n, rfl⟩ : ∃ n, fuel = n + 1 := ⟨fuel - 1, by omega⟩
    have h0 : (matchesAt scored t).length = 0 := by
      have := hzero 0 (by omega)
      simpa using this
    rw [descendingThresholdSearch, if_neg (by omega), if_pos h0]
    have hshift : ∀ j : Nat,
        t - SIMILARITY_STEP - (j : ℚ) * SIMILARITY_STEP
          = t - ((j + 1 : Nat) : ℚ) * SIMILARITY_STEP := by
      intro j
      push_cast
      ring
    have hz' : ∀ j < i + 1,
        (matchesAt scored (t - SIMILARITY_STEP - (j : ℚ) * SIMILARITY_STEP)).length = 0 := by
      intro j hj
      rw [hshift j]
      exact hzero (j + 1) (by omega)
    have h2' : 2 ≤ (matchesAt scored
        (t - SIMILARITY_STEP - ((i + 1 : Nat) : ℚ) * SIMILARITY_STEP)).length := by
      rw [hshift (i + 1)]
      exact h2
    have key := ih n (t - SIMILARITY_STEP) (some (t, 0)) (by omega) hz' h2'
    rw [hshift (i + 1), hshift i] at key
    exact key

theorem binarySearch_sound {α : Type} (scored : List (α × ℚ)) :
    ∀ (fuel : Nat) (low high : ℚ) (x : α × ℚ),
      binarySearchMatch scored low high fuel = some x →
      ∃ thr, matchesAt scored thr = [x] := by
  intro fuel
  induction fuel with
  | zero =>
    intro low high x h
    simp [binarySearchMatch] at h
  | succ n ih =>
    intro low high x h
    rw [binarySearchMatch] at h
    split_ifs at h with h1 h2
    · obtain ⟨y, hy⟩ := List.length_eq_one.mp h1
      refine ⟨(low + high) / 2, ?_⟩
      rw [hy] at h ⊢
      simp only [List.head?_cons, Option.some.injEq] at h
      rw [h]
    · exact ih _ _ _ h
    · exact ih _ _ _ h

theorem descend_sound {α : Type} (scored : List (α × ℚ)) :
    ∀ (fuel : Nat) (t : ℚ) (prev : Option (ℚ × Nat)) (x : α × ℚ),
      descendingThresholdSearch scored t prev fuel = some x →
      ∃ thr, matchesAt scored thr = [x] := by
  intro fuel
  induction fuel with
  | zero =>
    intro t prev x h
    simp [descendingThresholdSearch] at h
  | succ n ih =>
    intro t prev x h
    rw [descendingThresholdSearch] at h
    split_ifs at h with h1 h2
    · obtain ⟨y, hy⟩ := List.length_eq_one.mp h1
      refine ⟨t, ?_⟩
      rw [hy] at h ⊢
      simp only [List.head?_cons, Option.some.injEq] at h
      rw [h]
    · exact ih _ _ _ h
    · cases hp : prevZeroThreshold prev with
      | some pt =>
        rw [hp] at h
        exact binarySearch_sound scored _ _ _ _ h
      | none =>
        rw [hp] at h
        exact ih _ _ _ h

/-! ## Claim theorems for the matcher -/

/-- **C1**: when the overlap test fails, `_adaptive_similarity_match`
runs a descending threshold search over `0.95, 0.90, …`: (1) the first
probed threshold at which exactly one candidate scores at or above it
returns that candidate with its score; (2) when a probed threshold
yields zero candidates and the next lower one yields two or more, the
result is a binary search of that interval capped at 10 iterations; and
(3) whenever a candidate is returned at all, some threshold isolates
exactly that candidate with that score, so an ambiguous pool that never
isolates a single candidate yields no-match rather than an arbitrary
winner. -/
theorem adaptive_threshold_search_contract {α : Type} (scored : List (α × ℚ)) :
    (∀ i, i < SIMILARITY_MAX_STEPS →
        (matchesAt scored (testedThreshold i)).length = 1 →
        (∀ j, j < i → (matchesAt scored (testedThreshold j)).length ≠ 1) →
        descendingThresholdSearch scored SIMILARITY_START none SIMILARITY_MAX_STEPS
          = (matchesAt scored (testedThreshold i)).head?) ∧
    (∀ i, i + 1 < SIMILARITY_MAX_STEPS →
        (matchesAt scored (testedThreshold i)).length = 0 →
        2 ≤ (matchesAt scored (testedThreshold (i + 1))).length →
        descendingThresholdSearch scored SIMILARITY_START none SIMILARITY_MAX_STEPS
          = binarySearchMatch scored (testedThreshold (i + 1)) (testedThreshold i)
              SIMILARITY_MAX_STEPS) ∧
    (∀ x, descendingThresholdSearch scored SIMILARITY_START none SIMILARITY_MAX_STEPS = some x →
        ∃ thr, matchesAt scored thr = [x]) := by
  refine ⟨?_, ?_, ?_⟩
  · intro i hi h1 hne
    have hz : ∀ j, j < i → (matchesAt scored (testedThreshold j)).length = 0 := by
      intro j hj
      have hle : testedThreshold i ≤ testedThreshold j := testedThreshold_antitone (le_of_lt hj)
      have hmono := matchesAt_length_le scored hle
      have hne' := hne j hj
      omega
    exact descend_first_unique scored i SIMILARITY_MAX_STEPS SIMILARITY_START none hi hz h1
  · intro i hi h0 h2
    have hz : ∀ j, j < i + 1 → (matchesAt scored (testedThreshold j)).length = 0 := by
      intro j hj
      have hle : testedThreshold i ≤ testedThreshold j := testedThreshold_antitone (by omega)
      have hmono := matchesAt_length_le scored hle
      omega
    exact descend_zero_then_many scored i SIMILARITY_MAX_STEPS SIMILARITY_START none hi hz h2
  · intro x h
    exact descend_sound scored _ _ _ _ h

/-- Witness for C1: a single candidate scoring 0.9 is isolated at the
second probed threshold 0.90; a pool of two candidates both scoring 0.7
triggers the binary search of `(0.70, 0.75)`; and the returned candidate
of the first run is isolated at some threshold. -/
theorem adaptive_threshold_search_contract_witness :
    (descendingThresholdSearch [((0 : Nat), (9 : ℚ)/10)] SIMILARITY_START none
        SIMILARITY_MAX_STEPS
        = (matchesAt [((0 : Nat), (9 : ℚ)/10)] (testedThreshold 1)).head?) ∧
    (descendingThresholdSearch [((0 : Nat), (7 : ℚ)/10), (1, (7 : ℚ)/10)] SIMILARITY_START none
        SIMILARITY_MAX_STEPS
        = binarySearchMatch [((0 : Nat), (7 : ℚ)/10), (1, (7 : ℚ)/10)] (testedThreshold 5)
            (testedThreshold 4) SIMILARITY_MAX_STEPS) ∧
    (∃ thr, matchesAt [((0 : Nat), (9 : ℚ)/10)] thr = [(0, (9 : ℚ)/10)]) := by
  have hc1 : (matchesAt [((0 : Nat), (9 : ℚ)/10)] (testedThreshold 1)).length = 1 := by
    norm_num [matchesAt, testedThreshold, SIMILARITY_START, SIMILARITY_STEP]
  have hc0 : ∀ j, j < 1 → (matchesAt [((0 : Nat), (9 : ℚ)/10)] (testedThreshold j)).length ≠ 1 := by
    intro j hj
    interval_cases j
    norm_num [matchesAt, testedThreshold, SIMILARITY_START, SIMILARITY_STEP]
  have part1 := (adaptive_threshold_search_contract [((0 : Nat), (9 : ℚ)/10)]).1 1
    (by norm_num [SIMILARITY_MAX_STEPS]) hc1 hc0
  have hz4 : (matchesAt [((0 : Nat), (7 : ℚ)/10), (1, (7 : ℚ)/10)] (testedThreshold 4)).length
      = 0 := by
    norm_num [matchesAt, testedThreshold, SIMILARITY_START, SIMILARITY_STEP]
  have hm5 : 2 ≤ (matchesAt [((0 : Nat), (7 : ℚ)/10), (1, (7 : ℚ)/10)]
      (testedThreshold 5)).length := by
    norm_num [matchesAt, testedThreshold, SIMILARITY_START, SIMILARITY_STEP]
  have part2 := (adaptive_threshold_search_contract
    [((0 : Nat), (7 : ℚ)/10), (1, (7 : ℚ)/10)]).2.1 4 (by norm_num [SIMILARITY_MAX_STEPS]) hz4 hm5
  have hval : matchesAt [((0 : Nat), (9 : ℚ)/10)] (testedThreshold 1) = [(0, (9 : ℚ)/10)] := by
    norm_num [matchesAt, testedThreshold, SIMILARITY_START, SIMILARITY_STEP]
  have hsome : descendingThresholdSearch [((0 : Nat), (9 : ℚ)/10)] SIMILARITY_START none
      SIMILARITY_MAX_STEPS = some (0, (9 : ℚ)/10) := by
    rw [part1, hval]
    rfl
  have part3 := (adaptive_threshold_search_contract [((0 : Nat), (9 : ℚ)/10)]).2.2
    (0, (9 : ℚ)/10) hsome
  exact ⟨part1, part2, part3⟩

/-- **C2**: if exactly one candidate scores at or above `T` and exactly
one scores at or above `T' < T`, the two match sets are the same
singleton — the matcher can never isolate a *different* unique candidate
at the lower threshold. -/
theorem unique_match_threshold_monotone {α : Type} (scored : List (α × ℚ)) (T T' : ℚ)
    (hlt : T' < T) (h1 : (matchesAt scored T).length = 1)
    (h2 : (matchesAt scored T').length = 1) :
    matchesAt scored T = matchesAt scored T' :=
  List.Sublist.eq_of_length (matchesAt_sublist scored (le_of_lt hlt)) (by omega)

/-- Witness for C2 at a one-candidate pool and thresholds 0.9 > 0.8. -/
theorem unique_match_threshold_monotone_witness :
    matchesAt [((0 : Nat), (9 : ℚ)/10)] ((9 : ℚ)/10)
      = matchesAt [((0 : Nat), (9 : ℚ)/10)] ((8 : ℚ)/10) :=
  unique_match_threshold_monotone _ _ _ (by norm_num) (by norm_num [matchesAt])
    (by norm_num [matchesAt])

/-- **C3** counterexample: for the equal short keys "cat"/"cat" the
overlap test succeeds via the equality shortcut, although the claimed
characterisation (substring/prefix and the shorter key having ≥24
characters or ≥4 tokens) does not hold: the guard fails on the 3
characters and 1 token of "cat". -/
theorem title_overlap_equal_short_counterexample :
    titleOverlapMatch "cat" "cat" = true ∧ ¬ overlapSpecCondition "cat" "cat" := by
  refine ⟨?_, ?_⟩ <;> decide

/-- **C3** amended: the overlap test succeeds exactly when both keys are
non-empty and either the keys are *equal* or one is a substring/prefix
of the other with the shorter having at least 24 characters or at least
4 tokens; in particular it rejects every pair of distinct short keys
(fewer than 24 characters and 4 tokens) even when one is a prefix of the
other. -/
theorem title_overlap_match_characterization (a b : String) :
    titleOverlapMatch a b = true ↔
      (a.isEmpty = false ∧ b.isEmpty = false ∧ (a = b ∨ overlapSpecCondition a b)) := by
  by_cases ha : a.isEmpty
  · simp [titleOverlapMatch, ha]
  · by_cases hb : b.isEmpty
    · simp [titleOverlapMatch, ha, hb]
    · by_cases hab : a = b
      · simp [titleOverlapMatch, ha, hb, hab]
      · by_cases hg : (TITLE_MIN_CHARS ≤ (if a.length ≤ b.length then a else b).length
            ∨ TITLE_MIN_TOKENS ≤ (pyTokens (if a.length ≤ b.length then a else b)).length)
        · simp [titleOverlapMatch, overlapSpecCondition, ha, hb, hab, hg]
        · simp [titleOverlapMatch, overlapSpecCondition, ha, hb, hab, hg]

/-! ## Identity-probe lemmas and C4 -/

theorem probeCandidates_eq_none {table : List (String × String)} {cands : List KeyCandidate}
    (h : ∀ c ∈ cands, lookupBy table c.paper_key = none) :
    probeCandidates table cands = none := by
  induction cands with
  | nil => rfl
  | cons c rest ih =>
    rw [probeCandidates, h c (by simp)]
    exact ih (fun c' hc' => h c' (by simp [hc']))

theorem probeCandidates_first_hit {table : List (String × String)} :
    ∀ (cands : List KeyCandidate) (i : Nat) (c : KeyCandidate) (pid : String),
      cands[i]? = some c → lookupBy table c.paper_key = some pid →
      (∀ j c', j < i → cands[j]? = some c' → lookupBy table c'.paper_key = none) →
      probeCandidates table cands = some (pid, c) := by
  intro cands
  induction cands with
  | nil =>
    intro i c pid hidx
    simp at hidx
  | cons d rest ih =>
    intro i c pid hidx hlook hprior
    cases i with
    | zero =>
      simp only [List.getElem?_cons_zero, Option.some.injEq] at hidx
      subst hidx
      rw [probeCandidates, hlook]
    | succ i' =>
      have hd : lookupBy table d.paper_key = none := hprior 0 d (by omega) (by simp)
      rw [probeCandidates, hd]
      exact ih i' c pid (by simpa using hidx) hlook
        (fun j c' hj hc' => hprior (j + 1) c' (by omega) (by simpa using hc'))

/-- **C4**: identity resolution probes the ordered candidate keys
against the alias table one by one; the first candidate key with an
existing alias row returns that row's `paper_id` (and that candidate's
key data), and a fresh `paper_id` (the explicit id, or one derived from
the preferred key) is used only when no candidate key has an alias
entry. -/
theorem resolve_paper_identity_contract (table : List (String × String)) (explicitId : String)
    (cands : List KeyCandidate) (preferred : KeyCandidate) (freshIdOf : String → String) :
    (∀ (i : Nat) (c : KeyCandidate) (pid : String),
        cands[i]? = some c → lookupBy table c.paper_key = some pid →
        (∀ (j : Nat) (c' : KeyCandidate),
          j < i → cands[j]? = some c' → lookupBy table c'.paper_key = none) →
        resolvePaperIdentity table explicitId cands preferred freshIdOf
          = (pid, c.paper_key, c.key_type, c.meta_fingerprint)) ∧
    ((∀ c ∈ cands, lookupBy table c.paper_key = none) →
        resolvePaperIdentity table explicitId cands preferred freshIdOf
          = ((if explicitId.isEmpty then freshIdOf preferred.paper_key else explicitId),
              preferred.paper_key, preferred.key_type, preferred.meta_fingerprint)) := by
  constructor
  · intro i c pid hidx hlook hprior
    unfold resolvePaperIdentity
    rw [probeCandidates_first_hit cands i c pid hidx hlook hprior]
  · intro h
    unfold resolvePaperIdentity
    rw [probeCandidates_eq_none h]

/-- Witness for C4: with an alias table holding only `k2 ↦ P7`, the
record with candidate keys `[k1, k2]` inherits `P7` through its second
candidate, and with an empty table a fresh id derived from the preferred
key is allocated. -/
theorem resolve_paper_identity_contract_witness :
    resolvePaperIdentity [("k2", "P7")] "" [⟨"k1", "doi", none⟩, ⟨"k2", "bibtex", none⟩]
        ⟨"k1", "doi", none⟩ (fun k => "fresh-" ++ k)
      = ("P7", "k2", "bibtex", none) ∧
    resolvePaperIdentity [] "" [⟨"k1", "doi", none⟩] ⟨"k1", "doi", none⟩
        (fun k => "fresh-" ++ k)
      = ("fresh-k1", "k1", "doi", none) := by
  constructor
  · refine (resolve_paper_identity_contract [("k2", "P7")] "" _ _ _).1 1 ⟨"k2", "bibtex", none⟩
      "P7" (by decide) (by decide) ?_
    intro j c' hj hc'
    interval_cases j
    simp only [List.getElem?_cons_zero, Option.some.injEq] at hc'
    subst hc'
    decide
  · refine (resolve_paper_identity_contract [] "" _ _ _).2 ?_
    intro c _
    rfl

/-! ## Alias-registry invariant lemmas and C7 -/

theorem insertOrReplaceAlias_preserves (table : List AliasRow) (row : AliasRow)
    (h : aliasKeyFunctional table) : aliasKeyFunctional (insertOrReplaceAlias table row) := by
  unfold insertOrReplaceAlias
  split_ifs with hany
  · intro r1 h1 r2 h2 hk
    obtain ⟨s1, hs1, rfl⟩ := List.mem_map.mp h1
    obtain ⟨s2, hs2, rfl⟩ := List.mem_map.mp h2
    by_cases c1 : s1.paper_key = row.paper_key <;> by_cases c2 : s2.paper_key = row.paper_key
    · rw [if_pos c1, if_pos c2]
    · rw [if_pos c1, if_neg c2] at hk ⊢
      exact absurd hk.symm c2
    · rw [if_neg c1, if_pos c2] at hk ⊢
      exact absurd hk c1
    · rw [if_neg c1, if_neg c2] at hk ⊢
      exact h s1 hs1 s2 hs2 hk
  · intro r1 h1 r2 h2 hk
    rw [List.mem_append] at h1 h2
    rcases h1 with h1 | h1 <;> rcases h2 with h2 | h2
    · exact h r1 h1 r2 h2 hk
    · simp only [List.mem_singleton] at h2
      subst h2
      exact absurd (List.any_eq_true.mpr ⟨r1, h1, by simpa using hk⟩) hany
    · simp only [List.mem_singleton] at h1
      subst h1
      exact absurd (List.any_eq_true.mpr ⟨r2, h2, by simpa using hk.symm⟩) hany
    · simp only [List.mem_singleton] at h1 h2
      subst h1
      subst h2
      rfl

/-- **C7**: the empty alias registry maps every key to at most one
paper_id, and registering the candidate keys of a new paper (the
`INSERT OR REPLACE` loop of `_add_new_paper`) preserves the
at-most-one-paper_id-per-key invariant in every state satisfying it. -/
theorem alias_registry_key_functional :
    aliasKeyFunctional [] ∧
    ∀ (paperId : String) (table : List AliasRow) (cands : List KeyCandidate),
      aliasKeyFunctional table →
      aliasKeyFunctional (registerCandidateKeys paperId table cands) := by
  constructor
  · intro r1 h1
    simp at h1
  · intro paperId table cands
    induction cands generalizing table with
    | nil => exact fun h => h
    | cons c rest ih =>
      intro h
      exact ih _ (insertOrReplaceAlias_preserves _ _ h)

/-- Witness for C7: registering two candidates that share the key "a"
under paper `P1` onto the empty registry leaves a registry in which "a"
maps to a single paper_id. -/
theorem alias_registry_key_functional_witness :
    aliasKeyFunctional
      (registerCandidateKeys "P1" []
        [⟨"a", "doi", none⟩, ⟨"a", "meta", some "f"⟩, ⟨"b", "title", none⟩]) :=
  alias_registry_key_functional.2 "P1" []
    [⟨"a", "doi", none⟩, ⟨"a", "meta", some "f"⟩, ⟨"b", "title", none⟩]
    alias_registry_key_functional.1

/-! ## Content-addressed store lemmas and C6 -/

theorem blobCount_cons (pr : String × List Nat) (rest : List (String × List Nat))
    (name : String) :
    blobCount (pr :: rest) name = blobCount rest name + (if pr.1 = name then 1 else 0) := by
  by_cases h : pr.1 = name <;> simp [blobCount, List.filter_cons, h]

theorem blobCount_append (l1 l2 : List (String × List Nat)) (name : String) :
    blobCount (l1 ++ l2) name = blobCount l1 name + blobCount l2 name := by
  simp [blobCount, List.filter_append]

theorem blobCount_zero_iff (files : List (String × List Nat)) (name : String) :
    blobCount files name = 0 ↔ lookupBy files name = none := by
  induction files with
  | nil => simp [blobCount, lookupBy]
  | cons pr rest ih =>
    obtain ⟨k, v⟩ := pr
    by_cases h : k = name
    · simp [blobCount_cons, lookupBy, h]
    · simp [blobCount_cons, lookupBy, h, ih]

/-- **C6**: `store_bytes` is content addressed and idempotent: a stored
blob's path is always `images/<hash-of-content><ext>`, so the name is a
deterministic function of the bytes alone, independent of which paper or
in which order the bytes are submitted; re-storing the same bytes
returns the identical state and path without rewriting anything; storing
never creates a second file with an existing name; and storing bytes
whose name is not yet present creates exactly one file with that name. -/
theorem content_addressed_store_contract (hash : List Nat → String)
    (extOf : String → Option String) (st : ImageStore) (mime : String) (data : List Nat) :
    (∀ (st' : ImageStore) (rel : String),
        storeBytes hash extOf st mime data = (st', some rel) →
        ∃ ext, extOf mime = some ext ∧ rel = "images/" ++ (hash data ++ ext)) ∧
    (storeBytes hash extOf (storeBytes hash extOf st mime data).1 mime data
        = storeBytes hash extOf st mime data) ∧
    (∀ name, blobCount st.files name ≤ 1 →
        blobCount (storeBytes hash extOf st mime data).1.files name ≤ 1) ∧
    (∀ ext, extOf mime = some ext →
        st.written.contains (hash data ++ ext) = false →
        blobCount st.files (hash data ++ ext) = 0 →
        blobCount (storeBytes hash extOf st mime data).1.files (hash data ++ ext) = 1) := by
  refine ⟨?_, ?_, ?_, ?_⟩
  · intro st' rel h
    cases hext : extOf mime with
    | none => simp [storeBytes, hext] at h
    | some ext =>
      refine ⟨ext, rfl, ?_⟩
      simp only [storeBytes, hext] at h
      split_ifs at h <;>
        (simp only [Prod.mk.injEq, Option.some.injEq] at h
         exact h.2.symm)
  · cases hext : extOf mime with
    | none => simp [storeBytes, hext]
    | some ext =>
      by_cases hc : (hash data ++ ext) ∈ st.written
      · simp [storeBytes, hext, hc]
      · simp [storeBytes, hext, hc]
  · intro name hname
    cases hext : extOf mime with
    | none => simpa [storeBytes, hext] using hname
    | some ext =>
      by_cases hc : (hash data ++ ext) ∈ st.written
      · simpa [storeBytes, hext, hc] using hname
      · by_cases hl : (lookupBy st.files (hash data ++ ext)).isSome
        · simpa [storeBytes, hext, hc, hl] using hname
        · have hnone : lookupBy st.files (hash data ++ ext) = none := by
            cases hh : lookupBy st.files (hash data ++ ext)
            · rfl
            · rw [hh] at hl
              simp at hl
          have h0 : blobCount st.files (hash data ++ ext) = 0 :=
            (blobCount_zero_iff _ _).mpr hnone
          have hfiles : (storeBytes hash extOf st mime data).1.files
              = st.files ++ [(hash data ++ ext, data)] := by
            simp [storeBytes, hext, hc, hl]
          rw [hfiles, blobCount_append]
          by_cases hfn : hash data ++ ext = name
          · rw [← hfn] at hname ⊢
            rw [h0]
            simp [blobCount_cons, blobCount]
          · rw [blobCount_cons, if_neg hfn]
            simpa [blobCount] using hname
  · intro ext hext hc h0
    have hc' : (hash data ++ ext) ∉ st.written := by
      simpa using hc
    have hnone : lookupBy st.files (hash data ++ ext) = none := (blobCount_zero_iff _ _).mp h0
    have hfiles : (storeBytes hash extOf st mime data).1.files
        = st.files ++ [(hash data ++ ext, data)] := by
      simp [storeBytes, hext, hc', hnone]
    rw [hfiles, blobCount_append, h0]
    simp [blobCount]

/-- Witness for C6: storing bytes `[1,2,3]` under a constant hash "h"
into the empty store creates exactly one blob named `h.png`, re-storing
is a no-op, and the returned path is the hash-derived name. -/
theorem content_addressed_store_contract_witness :
    (storeBytes (fun _ => "h") (fun _ => some ".png")
        (storeBytes (fun _ => "h") (fun _ => some ".png") ⟨[], []⟩ "image/png" [1, 2, 3]).1
        "image/png" [1, 2, 3]
      = storeBytes (fun _ => "h") (fun _ => some ".png") ⟨[], []⟩ "image/png" [1, 2, 3]) ∧
    blobCount ((storeBytes (fun _ => "h") (fun _ => some ".png") ⟨[], []⟩ "image/png"
        [1, 2, 3]).1).files ("h" ++ ".png") = 1 ∧
    blobCount ((storeBytes (fun _ => "h") (fun _ => some ".png") ⟨[], []⟩ "image/png"
        [1, 2, 3]).1).files "other.png" ≤ 1 ∧
    (∃ ext, some ".png" = some ext ∧ "images/h.png" = "images/" ++ ("h" ++ ext)) := by
  refine ⟨?_, ?_, ?_, ?_⟩
  · exact (content_addressed_store_contract (fun _ => "h") (fun _ => some ".png") ⟨[], []⟩
      "image/png" [1, 2, 3]).2.1
  · exact (content_addressed_store_contract (fun _ => "h") (fun _ => some ".png") ⟨[], []⟩
      "image/png" [1, 2, 3]).2.2.2 ".png" rfl (by decide) (by decide)
  · exact (content_addressed_store_contract (fun _ => "h") (fun _ => some ".png") ⟨[], []⟩
      "image/png" [1, 2, 3]).2.2.1 "other.png" (by decide)
  · exact (content_addressed_store_contract (fun _ => "h") (fun _ => some ".png") ⟨[], []⟩
      "image/png" [1, 2, 3]).1 ⟨["h.png"], [("h.png", [1, 2, 3])]⟩ "images/h.png" (by decide)

/-! ## Metadata inheritance (C5) -/

/-- **C5**: when a merge pass updates an existing catalog entry, each
metadata field (DOI, BibTeX raw text/key/type, title, year, venue) takes
the incoming value exactly when the incoming record supplies a non-empty
one and keeps the prior snapshot's value otherwise, and the `paper_id`
is always preserved: omitting DOI cannot erase a stored DOI, and a
supplied DOI overrides the stored one. -/
theorem metadata_inheritance_contract (prior : CatalogEntry) (incoming : RecordMeta) :
    (mergeCatalogEntry prior incoming).paper_id = prior.paper_id ∧
    (incoming.doi.isEmpty = true → (mergeCatalogEntry prior incoming).doi = prior.doi) ∧
    (incoming.doi.isEmpty = false → (mergeCatalogEntry prior incoming).doi = incoming.doi) ∧
    (incoming.bibtex_raw.isEmpty = true →
        (mergeCatalogEntry prior incoming).bibtex_raw = prior.bibtex_raw) ∧
    (incoming.bibtex_raw.isEmpty = false →
        (mergeCatalogEntry prior incoming).bibtex_raw = incoming.bibtex_raw) ∧
    (incoming.bibtex_key.isEmpty = true →
        (mergeCatalogEntry prior incoming).bibtex_key = prior.bibtex_key) ∧
    (incoming.bibtex_key.isEmpty = false →
        (mergeCatalogEntry prior incoming).bibtex_key = incoming.bibtex_key) ∧
    (incoming.entry_type.isEmpty = true →
        (mergeCatalogEntry prior incoming).entry_type = prior.entry_type) ∧
    (incoming.entry_type.isEmpty = false →
        (mergeCatalogEntry prior incoming).entry_type = incoming.entry_type) ∧
    (incoming.title.isEmpty = true →
        (mergeCatalogEntry prior incoming).title = prior.title) ∧
    (incoming.title.isEmpty = false →
        (mergeCatalogEntry prior incoming).title = incoming.title) ∧
    (incoming.year.isEmpty = true → (mergeCatalogEntry prior incoming).year = prior.year) ∧
    (incoming.year.isEmpty = false → (mergeCatalogEntry prior incoming).year = incoming.year) ∧
    (incoming.venue.isEmpty = true → (mergeCatalogEntry prior incoming).venue = prior.venue) ∧
    (incoming.venue.isEmpty = false →
        (mergeCatalogEntry prior incoming).venue = incoming.venue) := by
  refine ⟨rfl, ?_, ?_, ?_, ?_, ?_, ?_, ?_, ?_, ?_, ?_, ?_, ?_, ?_, ?_⟩ <;>
    (intro h
     simp [mergeCatalogEntry, h])

/-- Witness for C5 at the records of
`test_rebuild_inherits_and_overrides_metadata`: the record that omits
DOI/BibTeX inherits the prior snapshot's values, and the record that
supplies them overrides, with the paper_id preserved in both cases. -/
theorem metadata_inheritance_contract_witness :
    (mergeCatalogEntry
        ⟨"11111111111111111111111111111111", "10.1000/previous-inherit",
          "@article oldinherit", "oldinherit", "article", "Inherited Metadata Paper", "2021",
          "acl"⟩
        ⟨"", "", "", "", "Inherited Metadata Paper", "2021", "ACL"⟩).doi
      = "10.1000/previous-inherit" ∧
    (mergeCatalogEntry
        ⟨"11111111111111111111111111111111", "10.1000/previous-inherit",
          "@article oldinherit", "oldinherit", "article", "Inherited Metadata Paper", "2021",
          "acl"⟩
        ⟨"", "", "", "", "Inherited Metadata Paper", "2021", "ACL"⟩).bibtex_key
      = "oldinherit" ∧
    (mergeCatalogEntry
        ⟨"22222222222222222222222222222222", "10.2000/previous-override",
          "@article oldoverride", "oldoverride", "article", "Override Metadata Paper", "2022",
          "emnlp"⟩
        ⟨"10.2000/current-override", "@article override2022", "override2022", "article",
          "Override Metadata Paper", "2022", "EMNLP"⟩).doi
      = "10.2000/current-override" ∧
    (mergeCatalogEntry
        ⟨"22222222222222222222222222222222", "10.2000/previous-override",
          "@article oldoverride", "oldoverride", "article", "Override Metadata Paper", "2022",
          "emnlp"⟩
        ⟨"10.2000/current-override", "@article override2022", "override2022", "article",
          "Override Metadata Paper", "2022", "EMNLP"⟩).paper_id
      = "22222222222222222222222222222222" := by
  refine ⟨?_, ?_, ?_, ?_⟩
  · exact (metadata_inheritance_contract _ _).2.1 (by decide)
  · exact (metadata_inheritance_contract _ _).2.2.2.2.2.1 (by decide)
  · exact (metadata_inheritance_contract _ _).2.2.1 (by decide)
  · exact (metadata_inheritance_contract _ _).1

/-! ## Supplement-engine lemmas and C8 -/

theorem lookupBy_append_left {κ β : Type} [DecidableEq κ] (l1 l2 : List (κ × β)) (k : κ)
    (h : (lookupBy l1 k).isSome) : lookupBy (l1 ++ l2) k = lookupBy l1 k := by
  induction l1 with
  | nil => simp [lookupBy] at h
  | cons pr rest ih =>
    obtain ⟨k', v⟩ := pr
    by_cases hk : k' = k
    · simp [lookupBy, hk]
    · simp only [List.cons_append, lookupBy, if_neg hk] at h ⊢
      exact ih h

theorem lookup_none_any_false {κ β : Type} [DecidableEq κ] (l : List (κ × β)) (k : κ)
    (h : lookupBy l k = none) : l.any (fun r => decide (r.1 = k)) = false := by
  induction l with
  | nil => rfl
  | cons pr rest ih =>
    obtain ⟨k', v⟩ := pr
    by_cases hk : k' = k
    · simp [lookupBy, hk] at h
    · simp only [lookupBy, if_neg hk] at h
      simp [hk, ih h]

theorem preservesExisting_refl (db : SnapshotDB) : preservesExisting db db :=
  ⟨rfl, fun _ _ => rfl, fun _ _ => rfl⟩

theorem preservesExisting_trans {a b c : SnapshotDB} (h1 : preservesExisting a b)
    (h2 : preservesExisting b c) : preservesExisting a c := by
  refine ⟨h2.1.trans h1.1, ?_, ?_⟩
  · intro k hk
    have hb := h1.2.1 k hk
    have hkb : (lookupBy b.summaries k).isSome := by
      rw [hb]
      exact hk
    rw [h2.2.1 k hkb, hb]
  · intro k hk
    have hb := h1.2.2 k hk
    have hkb : (lookupBy b.translations k).isSome := by
      rw [hb]
      exact hk
    rw [h2.2.2 k hkb, hb]

theorem supplementTemplates_preserves (db : SnapshotDB) (pid tag payload : String) :
    preservesExisting db (supplementTemplates db pid tag payload).1 := by
  unfold supplementTemplates
  split_ifs with h
  · exact preservesExisting_refl db
  · refine ⟨rfl, ?_, fun k hk => rfl⟩
    intro k hk
    exact lookupBy_append_left _ _ _ hk

theorem insertOrReplaceTranslation_absent (rows : List ((String × String) × String))
    (key : String × String) (value : String) (h : lookupBy rows key = none) :
    insertOrReplaceTranslation rows key value = rows ++ [(key, value)] := by
  unfold insertOrReplaceTranslation
  simp [lookup_none_any_false rows key h]

theorem supplementTranslations_preserves (pid : String)
    (finds : List (String × Option String)) :
    ∀ db : SnapshotDB, preservesExisting db (supplementTranslations pid db finds) := by
  induction finds with
  | nil =>
    intro db
    exact preservesExisting_refl db
  | cons f rest ih =>
    intro db
    rw [supplementTranslations]
    split_ifs with hex
    · exact ih db
    · cases hf : f.2 with
      | none => exact ih db
      | some h =>
        refine preservesExisting_trans ?_ (ih _)
        refine ⟨rfl, fun k hk => rfl, ?_⟩
        intro k hk
        have hnone : lookupBy db.translations (pid, f.1) = none := by
          cases hh : lookupBy db.translations (pid, f.1)
          · rfl
          · rw [hh] at hex
            simp at hex
        show lookupBy (insertOrReplaceTranslation db.translations (pid, f.1) h) k
          = lookupBy db.translations k
        rw [insertOrReplaceTranslation_absent _ _ _ hnone]
        exact lookupBy_append_left _ _ _ hk

theorem supplementForIds_preserves (tag payload : String)
    (finds : List (String × Option String)) :
    ∀ (ids : List String) (db : SnapshotDB),
      preservesExisting db (supplementForIds tag payload finds db ids) := by
  intro ids
  induction ids with
  | nil =>
    intro db
    exact preservesExisting_refl db
  | cons pid rest ih =>
    intro db
    rw [supplementForIds]
    refine preservesExisting_trans ?_ (ih _)
    exact preservesExisting_trans (supplementTemplates_preserves db pid tag payload)
      (supplementTranslations_preserves pid finds _)

theorem supplementPaperStep_preserves (db : SnapshotDB) (rec : SupplementRecord) :
    preservesExisting db (supplementPaperStep db rec) := by
  unfold supplementPaperStep
  split_ifs with h
  · exact preservesExisting_refl db
  · exact supplementForIds_preserves _ _ _ _ db

theorem supplementSnapshot_preserves :
    ∀ (records : List SupplementRecord) (db : SnapshotDB),
      preservesExisting db (supplementSnapshot db records) := by
  intro records
  induction records with
  | nil =>
    intro db
    exact preservesExisting_refl db
  | cons rec rest ih =>
    intro db
    rw [supplementSnapshot]
    exact preservesExisting_trans (supplementPaperStep_preserves db rec) (ih _)

/-- **C8**: a supplement pass never inserts a `paper` row (records that
resolve to no existing paper_id are skipped and leave the state
untouched), and it never overwrites an existing `paper_summary` row for
a `(paper_id, template_tag)` key or an existing `paper_translation` row
for a `(paper_id, lang)` key — existing rows keep their values; only
missing artifacts are added. -/
theorem supplement_snapshot_frame (db : SnapshotDB) (records : List SupplementRecord) :
    (supplementSnapshot db records).papers = db.papers ∧
    (∀ k, (lookupBy db.summaries k).isSome →
        lookupBy (supplementSnapshot db records).summaries k = lookupBy db.summaries k) ∧
    (∀ k, (lookupBy db.translations k).isSome →
        lookupBy (supplementSnapshot db records).translations k
          = lookupBy db.translations k) ∧
    (∀ rec : SupplementRecord, rec.resolvedIds = [] → supplementPaperStep db rec = db) := by
  have h := supplementSnapshot_preserves records db
  refine ⟨h.1, h.2.1, h.2.2, ?_⟩
  intro rec hrec
  simp [supplementPaperStep, hrec]

/-- Witness for C8: supplementing a snapshot that already has a summary
`(P1, simple)` and a translation `(P1, zh)` with a record that resolves
to `P1` and carries a new payload and new `zh`/`en` translations keeps
the paper rows and the existing summary and translation values, and a
record resolving to no paper changes nothing. -/
theorem supplement_snapshot_frame_witness :
    (supplementSnapshot ⟨["P1"], [(("P1", "simple"), "old")], [(("P1", "zh"), "h0")]⟩
        [⟨["P1"], "simple", "new", [("zh", some "h1"), ("en", some "h2")]⟩]).papers
      = ["P1"] ∧
    lookupBy (supplementSnapshot ⟨["P1"], [(("P1", "simple"), "old")], [(("P1", "zh"), "h0")]⟩
        [⟨["P1"], "simple", "new", [("zh", some "h1"), ("en", some "h2")]⟩]).summaries
        ("P1", "simple")
      = some "old" ∧
    lookupBy (supplementSnapshot ⟨["P1"], [(("P1", "simple"), "old")], [(("P1", "zh"), "h0")]⟩
        [⟨["P1"], "simple", "new", [("zh", some "h1"), ("en", some "h2")]⟩]).translations
        ("P1", "zh")
      = some "h0" ∧
    supplementPaperStep ⟨["P1"], [(("P1", "simple"), "old")], [(("P1", "zh"), "h0")]⟩
        ⟨[], "t", "p", []⟩
      = ⟨["P1"], [(("P1", "simple"), "old")], [(("P1", "zh"), "h0")]⟩ := by
  refine ⟨?_, ?_, ?_, ?_⟩
  · rw [(supplement_snapshot_frame ⟨["P1"], [(("P1", "simple"), "old")], [(("P1", "zh"), "h0")]⟩
      [⟨["P1"], "simple", "new", [("zh", some "h1"), ("en", some "h2")]⟩]).1]
  · rw [(supplement_snapshot_frame ⟨["P1"], [(("P1", "simple"), "old")], [(("P1", "zh"), "h0")]⟩
      [⟨["P1"], "simple", "new", [("zh", some "h1"), ("en", some "h2")]⟩]).2.1
      ("P1", "simple") (by decide)]
    decide
  · rw [(supplement_snapshot_frame ⟨["P1"], [(("P1", "simple"), "old")], [(("P1", "zh"), "h0")]⟩
      [⟨["P1"], "simple", "new", [("zh", some "h1"), ("en", some "h2")]⟩]).2.2.1
      ("P1", "zh") (by decide)]
    decide
  · exact (supplement_snapshot_frame ⟨["P1"], [(("P1", "simple"), "old")], [(("P1", "zh"), "h0")]⟩
      []).2.2.2 ⟨[], "t", "p", []⟩ rfl

/-! ## File-resolution claims C10 and C9 -/

/-- **C10**: whenever the year/author tail of `_resolve_by_title_and_meta`
returns a path, the reported similarity is at least 0.8
(`_AUTHOR_YEAR_MIN_SIMILARITY`): a fuzzy adaptive match below 0.8 makes
the resolver return no path instead. -/
theorem year_author_min_similarity_guard {α : Type} (sim : String → String → ℚ)
    (candTitle : α → String) (fileIndex : String → List α)
    (titleKey year authorKey : String) (m : α)
    (h : (yearAuthorResolve sim candTitle fileIndex titleKey year authorKey).1 = some m) :
    AUTHOR_YEAR_MIN_SIMILARITY
      ≤ (yearAuthorResolve sim candTitle fileIndex titleKey year authorKey).2.2 := by
  simp only [yearAuthorResolve] at h ⊢
  set A := adaptiveSimilarityMatch sim titleKey
    ((yearPoolCands fileIndex year authorKey).map (fun q => (q, candTitle q))) with hA
  by_cases h1 : (yearPoolCands fileIndex year authorKey).isEmpty = true
  · rw [if_pos h1] at h
    replace h : (none : Option α) = some m := h
    simp at h
  · rw [if_neg h1] at h ⊢
    by_cases h2 : (decide ((yearPoolCands fileIndex year authorKey).length = 1)
        && titleKey.isEmpty) = true
    · rw [if_pos h2]
      show AUTHOR_YEAR_MIN_SIMILARITY ≤ 1
      norm_num [AUTHOR_YEAR_MIN_SIMILARITY]
    · rw [if_neg h2] at h ⊢
      cases hres : A.1 with
      | none =>
        rw [hres] at h
        replace h : (none : Option α) = some m := h
        simp at h
      | some m' =>
        rw [hres] at h
        replace h : (if A.2 < AUTHOR_YEAR_MIN_SIMILARITY
            then ((none : Option α), (none : Option String), (0 : ℚ))
            else (some m', some "title_fuzzy", A.2)).1 = some m := h
        show AUTHOR_YEAR_MIN_SIMILARITY
          ≤ (if A.2 < AUTHOR_YEAR_MIN_SIMILARITY
              then ((none : Option α), (none : Option String), (0 : ℚ))
              else (some m', some "title_fuzzy", A.2)).2.2
        by_cases hs : A.2 < AUTHOR_YEAR_MIN_SIMILARITY
        · rw [if_pos hs] at h
          replace h : (none : Option α) = some m := h
          simp at h
        · rw [if_neg hs]
          exact le_of_not_lt hs

/-- Witness for C10: a one-candidate year pool with no title key is
accepted with score 1 ≥ 0.8. -/
theorem year_author_min_similarity_guard_witness :
    AUTHOR_YEAR_MIN_SIMILARITY
      ≤ (yearAuthorResolve (fun _ _ => (0 : ℚ)) (fun _ : Nat => "")
          (fun k => if k = "year:2020" then [0] else []) "" "2020" "").2.2 :=
  year_author_min_similarity_guard _ _ _ _ _ _ 0 (by decide)

/-- **C9** counterexample: when the exact normalized-title key maps to
several candidate paths, file resolution returns the first path in index
order — permuting the same candidate set flips the result, so the tie is
broken by list order, not by the fuzzy matcher. -/
theorem resolve_tie_order_dependence_counterexample :
    (resolveSourceMd (fun _ _ => (0 : ℚ)) (fun _ : Nat => "")
        (fun s => if s = "k" then [0, 1] else []) ⟨"k", "", [], ""⟩ = some 0) ∧
    (resolveSourceMd (fun _ _ => (0 : ℚ)) (fun _ : Nat => "")
        (fun s => if s = "k" then [1, 0] else []) ⟨"k", "", [], ""⟩ = some 1) ∧
    ([0, 1] : List Nat).Perm [1, 0] := by
  refine ⟨?_, ?_, ?_⟩ <;> decide

/-- **C9** amended: file resolution (`_resolve_source_md`) first tries
the exact lookup of the lowercased source-path filename, falling through
to `_resolve_by_title_and_meta`, which tries, in order, exact
normalized-title lookup, compact-title lookup, numeric-prefix-stripped
variants, prefix-key adaptive narrowing, and the year/author tail, and
returns at most one path (an `Option`); exact-key lookups — the
source-path filename stage included — return the *first* indexed path
for the key, and only the prefix-key and year/author pools are
disambiguated by the adaptive fuzzy matcher. -/
theorem resolve_order_contract {α : Type} (sim : String → String → ℚ)
    (candTitle : α → String) (fileIndex : String → List α) (p : PaperMeta) :
    (∀ (c : α) (rest : List α), p.sourcePath.isEmpty = false →
        fileIndex (strLower (pathBaseName p.sourcePath)) = c :: rest →
        resolveSourceMd sim candTitle fileIndex p = some c) ∧
    (p.sourcePath.isEmpty = false →
        fileIndex (strLower (pathBaseName p.sourcePath)) = [] →
        resolveSourceMd sim candTitle fileIndex p
          = (resolveByTitleAndMeta sim candTitle fileIndex p).1) ∧
    (p.sourcePath.isEmpty = true →
        resolveSourceMd sim candTitle fileIndex p
          = (resolveByTitleAndMeta sim candTitle fileIndex p).1) ∧
    (∀ (c : α) (rest : List α), fileIndex p.titleKey = c :: rest →
        resolveByTitleAndMeta sim candTitle fileIndex p = (some c, some "title", 1)) ∧
    (∀ (c : α) (rest : List α), fileIndex p.titleKey = [] → p.titleKey.isEmpty = false →
        fileIndex ("compact:" ++ compactTitleKey p.titleKey) = c :: rest →
        resolveByTitleAndMeta sim candTitle fileIndex p = (some c, some "title_compact", 1)) ∧
    (∀ (c : α) (rest : List α), fileIndex p.titleKey = [] → p.titleKey.isEmpty = false →
        fileIndex ("compact:" ++ compactTitleKey p.titleKey) = [] →
        (stripLeadingNumericTokens p.titleKey).isEmpty = false →
        stripLeadingNumericTokens p.titleKey ≠ p.titleKey →
        fileIndex (stripLeadingNumericTokens p.titleKey) = c :: rest →
        resolveByTitleAndMeta sim candTitle fileIndex p
          = (some c, some "title_stripped", 1)) ∧
    (∀ (k : String) (c : α) (rest : List α) (m : α) (s : ℚ),
        fileIndex p.titleKey = [] → p.titleKey.isEmpty = false →
        fileIndex ("compact:" ++ compactTitleKey p.titleKey) = [] →
        stripLeadingNumericTokens p.titleKey = p.titleKey →
        titlePrefixKey p.titleKey = some k → fileIndex k = c :: rest →
        adaptiveSimilarityMatch sim p.titleKey ((c :: rest).map (fun q => (q, candTitle q)))
          = (some m, s) →
        resolveByTitleAndMeta sim candTitle fileIndex p
          = (some m, some (if 1 ≤ s then "title_prefix" else "title_fuzzy"), s)) ∧
    (fileIndex p.titleKey = [] → p.titleKey.isEmpty = false →
        fileIndex ("compact:" ++ compactTitleKey p.titleKey) = [] →
        stripLeadingNumericTokens p.titleKey = p.titleKey →
        titlePrefixKey p.titleKey = none →
        (!(trimList p.yearLabel.toList).isEmpty
            && (trimList p.yearLabel.toList).all Char.isDigit) = true →
        resolveByTitleAndMeta sim candTitle fileIndex p
          = yearAuthorResolve sim candTitle fileIndex p.titleKey
              (String.mk (trimList p.yearLabel.toList))
              (match p.authors with
               | [] => ""
               | a :: _ => normalizeAuthorKey a)) := by
  refine ⟨?_, ?_, ?_, ?_, ?_, ?_, ?_, ?_⟩
  · intro c rest hsp hname
    simp [resolveSourceMd, hsp, hname]
  · intro hsp hname
    simp [resolveSourceMd, hsp, hname]
  · intro hsp
    simp [resolveSourceMd, hsp]
  · intro c rest h1
    simp [resolveByTitleAndMeta, h1]
  · intro c rest h1 hne h2
    simp [resolveByTitleAndMeta, h1, hne, h2]
  · intro c rest h1 hne h2 hs0 hs1 h3
    simp [resolveByTitleAndMeta, h1, hne, h2, hs0, hs1, h3]
  · intro k c rest m s h1 hne h2 hstrip hpk hk hadapt
    simp only [List.map_cons] at hadapt
    simp [resolveByTitleAndMeta, h1, hne, h2, hstrip, hpk, hk, hadapt]
  · intro h1 hne h2 hstrip hpk hyd
    have hne' : trimList p.yearLabel.toList ≠ [] := by
      intro hnil
      rw [hnil] at hyd
      simp at hyd
    have hdig : ∀ x ∈ trimList p.yearLabel.toList, x.isDigit = true := by
      intro x hx
      have hall := (Bool.and_eq_true _ _).mp hyd
      exact List.all_eq_true.mp hall.2 x hx
    simp only [resolveByTitleAndMeta, h1, hne, h2, hstrip, hpk]
    simp
    intro hcond
    rcases hcond with hnil | ⟨x, hx, hfalse⟩
    · exact absurd hnil hne'
    · rw [hdig x hx] at hfalse
      exact absurd hfalse (by simp)

/-- Witness for C9: the source-path filename stage and the exact-title
stage each return the first indexed path, and the prefix stage returns
the adaptive matcher's choice. -/
theorem resolve_order_contract_witness :
    (resolveSourceMd (fun _ _ => (0 : ℚ)) (fun _ : Nat => "")
        (fun s => if s = "paper.md" then [7] else []) ⟨"", "", [], "dir/Paper.MD"⟩
      = some 7) ∧
    (resolveByTitleAndMeta (fun _ _ => (0 : ℚ)) (fun _ : Nat => "")
        (fun s => if s = "k" then [0, 1] else []) ⟨"k", "", [], ""⟩
      = (some 0, some "title", 1)) ∧
    (resolveByTitleAndMeta (fun _ _ => (0 : ℚ))
        (fun _ : Nat => "deep learning for molecular graphs")
        (fun s => if s = "prefix:deeplearningform" then [0] else [])
        ⟨"deep learning for molecular graphs", "", [], ""⟩
      = (some 0, some (if (1 : ℚ) ≤ 1 then "title_prefix" else "title_fuzzy"), 1)) := by
  refine ⟨?_, ?_, ?_⟩
  · exact (resolve_order_contract (fun _ _ => (0 : ℚ)) (fun _ : Nat => "")
      (fun s => if s = "paper.md" then [7] else []) ⟨"", "", [], "dir/Paper.MD"⟩).1 7 []
      (by decide) (by decide)
  · exact (resolve_order_contract (fun _ _ => (0 : ℚ)) (fun _ : Nat => "")
      (fun s => if s = "k" then [0, 1] else []) ⟨"k", "", [], ""⟩).2.2.2.1 0 [1] (by decide)
  · exact (resolve_order_contract (fun _ _ => (0 : ℚ))
      (fun _ : Nat => "deep learning for molecular graphs")
      (fun s => if s = "prefix:deeplearningform" then [0] else [])
      ⟨"deep learning for molecular graphs", "", [], ""⟩).2.2.2.2.2.2.1
      "prefix:deeplearningform" 0 [] 0 1 (by decide) (by decide) (by decide) (by decide)
      (by decide) (by decide) (by decide)

end DrFlow
